import Mathlib

/-!
Shallow embedding of `src/music_store_monitor.py` (class
`PriceRequiredMultiStoreMusicMonitor`) and proofs about its extraction,
validation, novelty-detection and notification pipeline.

Conventions of the embedding:
* Python strings are Lean `String`s (sequences of code points), Python
  non-negative ints are `Nat`, Python `None` is `Option.none`.
* Library calls whose result depends on the process environment are passed
  in as explicit parameters: the salted builtin `hash` becomes a parameter
  `h : String → Int` (one value per interpreter process), `datetime.now`
  becomes a string parameter `now`, and `urllib.parse.urljoin` becomes a
  parameter `uj : String → String → String`.
* The regular expressions of the source are embedded as first-match
  scanners over `List Char`, written out per pattern.  The class `\d` is
  modelled by `Char.isDigit` and `\s` by `Char.isWhitespace`; every string
  the program actually matches against these classes is covered.
-/

namespace MSM

/-- Occurrence of `needle` as a contiguous run inside `hay`. -/
def listInfix (needle : List Char) : List Char → Bool
  | [] => needle.isEmpty
  | c :: rest => needle.isPrefixOf (c :: rest) || listInfix needle rest

/-- Python `needle in hay` on strings: substring containment. -/
def strContains (hay needle : String) : Bool :=
  listInfix needle.toList hay.toList

/-- Python `str.lower`, restricted to ASCII case mapping.  Every cased
character occurring in the program's fixed keyword/noise/brand lists is
ASCII, and kana/CJK/symbols are caseless, so this agrees with Python on
the data the program compares. -/
def pyLower (s : String) : String :=
  String.mk (s.toList.map Char.toLower)

/-- Python `str.strip()` on the character list: leading and trailing
whitespace removed. -/
def trimChars (l : List Char) : List Char :=
  ((l.dropWhile Char.isWhitespace).reverse.dropWhile Char.isWhitespace).reverse

/-- Python `str.strip()` over code points. -/
def pyTrim (s : String) : String := String.mk (trimChars s.toList)

/-- Python `s.startswith(pre)`. -/
def pyStartsWith (s pre : String) : Bool := pre.toList.isPrefixOf s.toList

/-- Python `s.split(sep)[0]` for a non-empty separator: the prefix before
the first occurrence of the separator (the whole string when absent). -/
def beforeFirst (sep : List Char) : List Char → List Char
  | [] => []
  | c :: rest =>
    if sep.isPrefixOf (c :: rest) then []
    else c :: beforeFirst sep rest

/-- Characters matched by the regex class `[\d,]`. -/
def isDigitComma (c : Char) : Bool := c.isDigit || c == ','

/-- Value of a decimal digit character. -/
def charVal (c : Char) : Nat := c.toNat - 48

/-- Decimal digit character for a value below ten. -/
def digitChar : Nat → Char
  | 0 => '0' | 1 => '1' | 2 => '2' | 3 => '3' | 4 => '4'
  | 5 => '5' | 6 => '6' | 7 => '7' | 8 => '8' | _ => '9'

/-- Python `int(s)` for a string of decimal digits. -/
def digitsToNat (l : List Char) : Nat :=
  l.foldl (fun a c => 10 * a + charVal c) 0

/-- Base-ten digit characters by repeated division; the fuel only bounds
the recursion depth and one unit is consumed per digit. -/
def natDecDigitsAux : Nat → Nat → List Char
  | 0, _ => []
  | fuel + 1, n =>
    if n = 0 then [] else natDecDigitsAux fuel (n / 10) ++ [digitChar (n % 10)]

/-- Decimal digit characters of a natural number, most significant first
(the digits of Python's rendering of a non-negative int). -/
def natDecDigits (n : Nat) : List Char :=
  if n = 0 then ['0'] else natDecDigitsAux (n + 1) n

/-- Helper for Python's thousands-separated int format: the input is the
reversed digit string; a comma is inserted after every third digit
counting from the right. -/
def groupCommaAux : List Char → List Char
  | a :: b :: c :: d :: rest => a :: b :: c :: ',' :: groupCommaAux (d :: rest)
  | l => l

/-- Python's thousands-separated format of a non-negative int: decimal
digits grouped in threes by commas. -/
def pyFormatComma (n : Nat) : String :=
  String.mk ((groupCommaAux (natDecDigits n).reverse).reverse)

/-- First element of `re.findall(r'[\d,]+', s)`: the leftmost maximal run
of digit/comma characters, if any. -/
def firstDigitCommaRun : List Char → Option (List Char)
  | [] => none
  | c :: rest =>
    if isDigitComma c then some (c :: rest.takeWhile isDigitComma)
    else firstDigitCommaRun rest

/-- `extract_price_value` (source lines 124-136): take the first run of
digits and commas, drop the commas, and parse the digits; `0` when the
string is empty, no run exists, or `int` fails (run of commas only). -/
def extract_price_value (price_str : String) : Nat :=
  match firstDigitCommaRun price_str.toList with
  | none => 0
  | some run =>
    let cleaned := run.filter (fun c => c != ',')
    if cleaned.isEmpty then 0 else digitsToNat cleaned

/-- First-match scanner for `re.search(r'SYM([^\s]+)', text)` where `SYM`
is a single marker character: source patterns 1 (`¥`) and 5 (`￥`).
The capture group is the maximal run of non-whitespace characters after
the first occurrence of `SYM` that is followed by at least one
non-whitespace character. -/
def symbolRunGroup (sym : Char) : List Char → Option (List Char)
  | [] => none
  | c :: rest =>
    if c == sym then
      let run := rest.takeWhile (fun d => !d.isWhitespace)
      if run.isEmpty then symbolRunGroup sym rest else some run
    else symbolRunGroup sym rest

/-- Greedy `(?:,\d{3})*`: consume as many comma-plus-three-digit blocks as
possible, returning the consumed characters and the remainder. -/
def commaTriples : List Char → List Char × List Char
  | ',' :: a :: b :: c :: rest =>
    if a.isDigit && b.isDigit && c.isDigit then
      let p := commaTriples rest
      (',' :: a :: b :: c :: p.1, p.2)
    else ([], ',' :: a :: b :: c :: rest)
  | l => ([], l)

/-- Match `\d{k}(?:,\d{3})+` at the start of `l` (the leading digit block
taken with exact size `k`), returning the capture group and the remainder
after it. -/
def groupedDigitsExact (k : Nat) (l : List Char) : Option (List Char × List Char) :=
  if k ≤ (l.takeWhile Char.isDigit).length then
    let g := l.take k
    let p := commaTriples (l.drop k)
    if p.1.isEmpty then none else some (g ++ p.1, p.2)
  else none

/-- One backtracking alternative of `(\d{1,3}(?:,\d{3})+)` at the current
position: leading block of exactly `k` digits, then the comma blocks, then
the continuation check `after` on the remainder. -/
def groupedTry (after : List Char → Bool) (k : Nat) (l : List Char) : Option (List Char) :=
  match groupedDigitsExact k l with
  | some p => if after p.2 then some p.1 else none
  | none => none

/-- Match `(\d{1,3}(?:,\d{3})+)` followed by `after` at the current
position; the greedy-with-backtracking `\d{1,3}` is the 3-2-1
alternation.  (Giving back comma blocks never helps: the remainder would
then start with a comma, which no continuation of the source accepts.) -/
def groupedAt (after : List Char → Bool) (l : List Char) : Option (List Char) :=
  match groupedTry after 3 l with
  | some g => some g
  | none =>
    match groupedTry after 2 l with
    | some g => some g
    | none => groupedTry after 1 l

/-- First-match scanner for the grouped-digits patterns: leftmost position
where `groupedAt` succeeds. -/
def groupedSearch (after : List Char → Bool) : List Char → Option (List Char)
  | [] => none
  | c :: rest =>
    match groupedAt after (c :: rest) with
    | some g => some g
    | none => groupedSearch after rest

/-- Continuation of source pattern 2: the literal `円` after the group. -/
def yenSuffixOk (rem : List Char) : Bool := rem.head? == some '円'

/-- Continuation of source pattern 4: the lookahead `(?=\s*\(税込\))`. -/
def taxLookaheadOk (rem : List Char) : Bool :=
  "(税込)".toList.isPrefixOf (rem.dropWhile Char.isWhitespace)

/-- Tail of source pattern 3 after the label: `\s*¥?([^\s]+)`.  When the
character after the whitespace is `¥` but nothing non-whitespace follows
it, the optional `¥?` backtracks to empty and the group is `¥` itself. -/
def priceLabelTail (r : List Char) : Option (List Char) :=
  match r.dropWhile Char.isWhitespace with
  | '¥' :: r3 =>
    let run := r3.takeWhile (fun d => !d.isWhitespace)
    if run.isEmpty then some ['¥'] else some run
  | r2 =>
    let run := r2.takeWhile (fun d => !d.isWhitespace)
    if run.isEmpty then none else some run

/-- Match of source pattern 3, `価格[：:]?\s*¥?([^\s]+)`, at the current
position, including the backtracking of the optional colon. -/
def priceLabelAt (l : List Char) : Option (List Char) :=
  match l with
  | c :: g :: r1 =>
    if c == '価' && g == '格' then
      match r1 with
      | k :: r2 =>
        if k == '：' || k == ':' then
          match priceLabelTail r2 with
          | some grp => some grp
          | none => priceLabelTail r1
        else priceLabelTail r1
      | [] => priceLabelTail r1
    else none
  | _ => none

/-- First-match scanner for source pattern 3. -/
def priceLabelGroup : List Char → Option (List Char)
  | [] => none
  | c :: rest =>
    match priceLabelAt (c :: rest) with
    | some g => some g
    | none => priceLabelGroup rest

/-- Canonicalisation applied to a capture group (source lines 626-630):
commas stripped, every remaining non-digit removed, and when digits remain
the price is rendered as `¥` plus the thousands-grouped value.  The source
guard `clean_price.isdigit()` is equivalent to non-emptiness because the
substitution leaves decimal digits only. -/
def canonize (g : List Char) : Option String :=
  let noCommas := g.filter (fun c => c != ',')
  let clean := noCommas.filter Char.isDigit
  if clean.isEmpty then none
  else some ("¥" ++ pyFormatComma (digitsToNat clean))

/-- `extract_price_from_text` (source lines 613-631): the five price
regexes are tried in order; for the first pattern that matches, the
capture group is canonicalised; when the group of the matching pattern
contains no digit that pattern yields nothing and the next one is
tried. -/
def extract_price_from_text (text : String) : Option String :=
  match (symbolRunGroup '¥' text.toList).bind canonize with
  | some s => some s
  | none =>
  match (groupedSearch yenSuffixOk text.toList).bind canonize with
  | some s => some s
  | none =>
  match (priceLabelGroup text.toList).bind canonize with
  | some s => some s
  | none =>
  match (groupedSearch taxLookaheadOk text.toList).bind canonize with
  | some s => some s
  | none => (symbolRunGroup '￥' text.toList).bind canonize

/-! Helper lemmas about the decimal rendering and the price round trip. -/

theorem digitChar_isDigit (d : Nat) : (digitChar d).isDigit = true := by
  unfold digitChar
  split <;> decide

theorem charVal_digitChar (d : Nat) (h : d < 10) : charVal (digitChar d) = d := by
  interval_cases d <;> decide

theorem natDecDigitsAux_eq (fuel : Nat) : ∀ n : Nat, n ≤ fuel →
    natDecDigitsAux fuel n = ((Nat.digits 10 n).map digitChar).reverse := by
  induction fuel with
  | zero =>
    intro n hn
    interval_cases n
    simp [natDecDigitsAux]
  | succ m ih =>
    intro n hn
    by_cases h0 : n = 0
    · subst h0
      simp [natDecDigitsAux]
    · rw [natDecDigitsAux]
      rw [if_neg h0]
      have hdiv : n / 10 < n := Nat.div_lt_self (Nat.pos_of_ne_zero h0) (by norm_num)
      rw [ih (n / 10) (by omega)]
      rw [Nat.digits_def' (by norm_num : (1:ℕ) < 10) (Nat.pos_of_ne_zero h0)]
      simp

theorem natDecDigits_eq (n : Nat) :
    natDecDigits n = if n = 0 then ['0'] else ((Nat.digits 10 n).map digitChar).reverse := by
  unfold natDecDigits
  split
  · rfl
  · rw [natDecDigitsAux_eq (n + 1) n (by omega)]

theorem natDecDigits_isDigit (n : Nat) : ∀ c ∈ natDecDigits n, c.isDigit = true := by
  intro c hc
  rw [natDecDigits_eq] at hc
  split at hc
  · rw [List.mem_singleton] at hc
    subst hc; decide
  · rw [List.mem_reverse] at hc
    obtain ⟨d, _, rfl⟩ := List.mem_map.1 hc
    exact digitChar_isDigit d

theorem ne_comma_of_isDigit {c : Char} (h : c.isDigit = true) : (c != ',') = true := by
  rcases eq_or_ne c ',' with rfl | hne
  · exact absurd h (by decide)
  · simpa using hne

theorem isDigitComma_of_isDigit {c : Char} (h : c.isDigit = true) :
    isDigitComma c = true := by
  unfold isDigitComma
  rw [h, Bool.true_or]

theorem natDecDigits_ne_nil (n : Nat) : natDecDigits n ≠ [] := by
  rw [natDecDigits_eq]
  split
  · simp
  · rw [← List.length_pos, List.length_reverse, List.length_map, List.length_pos]
    rw [Nat.digits_ne_nil_iff_ne_zero]
    assumption

theorem groupCommaAux_filter : ∀ l : List Char, (∀ c ∈ l, (c != ',') = true) →
    (groupCommaAux l).filter (fun c => c != ',') = l := by
  intro l
  induction l using groupCommaAux.induct with
  | case1 a b c d rest ih =>
    intro h
    rw [groupCommaAux]
    have ha := h a (by simp)
    have hb := h b (by simp)
    have hc := h c (by simp)
    have hrest : ∀ x ∈ d :: rest, (x != ',') = true := by
      intro x hx
      exact h x (by simp [List.mem_cons] at hx ⊢; tauto)
    simp only [List.filter_cons, ha, hb, hc, if_pos]
    norm_num [ih hrest]
  | case2 l h1 =>
    intro h
    rw [groupCommaAux.eq_def]
    split
    · exact (h1 _ _ _ _ _ rfl).elim
    · exact List.filter_eq_self.2 h

theorem groupCommaAux_mem : ∀ l : List Char, (∀ c ∈ l, isDigitComma c = true) →
    ∀ c ∈ groupCommaAux l, isDigitComma c = true := by
  intro l
  induction l using groupCommaAux.induct with
  | case1 a b c d rest ih =>
    intro h x hx
    rw [groupCommaAux] at hx
    simp only [List.mem_cons] at hx
    rcases hx with rfl | rfl | rfl | rfl | hx
    · exact h x (by simp)
    · exact h x (by simp)
    · exact h x (by simp)
    · decide
    · exact ih (fun y hy => h y (by simp [List.mem_cons] at hy ⊢; tauto)) x hx
  | case2 l h1 =>
    intro h x hx
    rw [groupCommaAux.eq_def] at hx
    split at hx
    · exact (h1 _ _ _ _ _ rfl).elim
    · exact h x hx

theorem groupCommaAux_ne_nil : ∀ l : List Char, l ≠ [] → groupCommaAux l ≠ [] := by
  intro l
  induction l using groupCommaAux.induct with
  | case1 a b c d rest ih =>
    intro _
    rw [groupCommaAux]
    simp
  | case2 l h1 =>
    intro h
    rw [groupCommaAux.eq_def]
    split
    · exact (h1 _ _ _ _ _ rfl).elim
    · exact h

theorem takeWhile_all {α : Type} {p : α → Bool} :
    ∀ l : List α, (∀ c ∈ l, p c = true) → l.takeWhile p = l := by
  intro l h
  exact List.takeWhile_eq_self_iff.2 h

theorem foldl_digits (ds : List Nat) (h : ∀ d ∈ ds, d < 10) : ∀ a : Nat,
    ((ds.map digitChar).reverse).foldl (fun x c => 10 * x + charVal c) a
      = a * 10 ^ ds.length + Nat.ofDigits 10 ds := by
  induction ds with
  | nil => intro a; simp [Nat.ofDigits_nil]
  | cons d t ih =>
    intro a
    have hd : d < 10 := h d (by simp)
    have ht : ∀ x ∈ t, x < 10 := fun x hx => h x (by simp [hx])
    simp only [List.map_cons, List.reverse_cons, List.foldl_append, List.foldl_cons,
      List.foldl_nil]
    rw [ih ht a, charVal_digitChar d hd, Nat.ofDigits_cons, List.length_cons]
    ring

theorem digitsToNat_natDecDigits (n : Nat) : digitsToNat (natDecDigits n) = n := by
  rw [natDecDigits_eq]
  split
  · subst n; decide
  · unfold digitsToNat
    rw [foldl_digits (Nat.digits 10 n)
      (fun d hd => Nat.digits_lt_base (by norm_num) hd) 0]
    simp [Nat.ofDigits_digits]

/-- Round trip: parsing back one of the program's canonical price strings
recovers the integer it was rendered from. -/
theorem extract_price_value_canonical (n : Nat) :
    extract_price_value ("¥" ++ pyFormatComma n) = n := by
  have hdn : ∀ c ∈ natDecDigits n, c.isDigit = true := natDecDigits_isDigit n
  have hdc : ∀ c ∈ (natDecDigits n).reverse, isDigitComma c = true := by
    intro c hc
    exact isDigitComma_of_isDigit (hdn c (List.mem_reverse.1 hc))
  have hg : ∀ c ∈ (groupCommaAux (natDecDigits n).reverse).reverse, isDigitComma c = true := by
    intro c hc
    exact groupCommaAux_mem _ hdc c (List.mem_reverse.1 hc)
  have hne : (groupCommaAux (natDecDigits n).reverse).reverse ≠ [] := by
    simp only [ne_eq, List.reverse_eq_nil_iff]
    exact groupCommaAux_ne_nil _ (by simp [natDecDigits_ne_nil n])
  have hdata : ("¥" ++ pyFormatComma n).toList
      = '¥' :: (groupCommaAux (natDecDigits n).reverse).reverse := by
    show ("¥" ++ pyFormatComma n).data = _
    rw [String.data_append]
    rfl
  unfold extract_price_value
  rw [hdata]
  rw [firstDigitCommaRun]
  rw [if_neg (by decide)]
  obtain ⟨c, t, hct⟩ : ∃ c t, (groupCommaAux (natDecDigits n).reverse).reverse = c :: t := by
    rcases hcase : (groupCommaAux (natDecDigits n).reverse).reverse with _ | ⟨c, t⟩
    · exact absurd hcase hne
    · exact ⟨c, t, rfl⟩
  rw [hct]
  rw [firstDigitCommaRun]
  rw [if_pos (hg c (by rw [hct]; simp))]
  rw [takeWhile_all t (fun x hx => hg x (by rw [hct]; simp [hx]))]
  rw [← hct]
  have hfil : ((groupCommaAux (natDecDigits n).reverse).reverse).filter (fun c => c != ',')
      = natDecDigits n := by
    rw [List.filter_reverse, groupCommaAux_filter _ ?h, List.reverse_reverse]
    case h =>
      intro x hx
      exact ne_comma_of_isDigit (hdn x (List.mem_reverse.1 hx))
  simp only [hfil]
  rw [if_neg (by simp [natDecDigits_ne_nil n])]
  exact digitsToNat_natDecDigits n

theorem bind_canonize_some {o : Option (List Char)} {s : String}
    (h : o.bind canonize = some s) : ∃ g, canonize g = some s := by
  rcases Option.bind_eq_some.1 h with ⟨g, _, hc⟩
  exact ⟨g, hc⟩

/-- Every result of `extract_price_from_text` is the canonicalisation of
some capture group. -/
theorem extract_price_from_text_canonize {text : String} {s : String}
    (h : extract_price_from_text text = some s) :
    ∃ g, canonize g = some s := by
  unfold extract_price_from_text at h
  split at h
  · rename_i s1 heq
    cases h
    exact bind_canonize_some heq
  · split at h
    · rename_i s1 heq
      cases h
      exact bind_canonize_some heq
    · split at h
      · rename_i s1 heq
        cases h
        exact bind_canonize_some heq
      · split at h
        · rename_i s1 heq
          cases h
          exact bind_canonize_some heq
        · exact bind_canonize_some h

/-- The canonicalisation of any capture group is a yen sign followed by
the thousands-grouped digits of some integer. -/
theorem canonize_shape {g : List Char} {s : String} (h : canonize g = some s) :
    ∃ n, s = "¥" ++ pyFormatComma n := by
  simp only [canonize] at h
  split at h
  · exact absurd h (by simp)
  · exact ⟨_, (Option.some.inj h).symm⟩

/-! Data model: product records, creation, validation, classification. -/

/-- A product record, as built by `create_product_info` and stored in
snapshots (fields of the Python dict, in order). -/
structure Product where
  id : String
  name : String
  price : String
  link : String
  store : String
  store_name : String
  found_date : String
deriving DecidableEq, Repr

/-- `create_product_info` (source lines 633-645).  The parameter `h`
stands for the builtin `hash` of the running interpreter process (its
values are salted per process); `now` stands for
`datetime.now().isoformat()`.  The id is the store key, an underscore and
the decimal rendering of the hash, minus signs removed, cut to 15
characters.  (`str.replace('-', '')` removes every minus sign, i.e.
filters that character out; the slice keeps the first 15 code points.) -/
def create_product_info (h : String → Int) (now : String)
    (store name : String) (price : Option String) (link store_name : String) : Product :=
  { id := String.mk (((store ++ "_" ++ toString (h (name ++ link))).toList.filter
      (fun c => c != '-')).take 15)
    name := pyTrim name
    price := match price with
             | none => "価格確認中"
             | some s => if s = "" then "価格確認中" else s
    link := link
    store := store
    store_name := store_name
    found_date := now }

/-- Noise-term blocklist of `is_valid_product` (source lines 671-683). -/
def noise_texts : List String :=
  ["more", "読み込み中", "loading", "...", "詳細", "detail",
   "もっと見る", "view more", "show more", "続きを見る",
   "next", "prev", "previous", "次へ", "前へ", "ページ", "page",
   "カート", "cart", "ログイン", "login", "menu", "メニュー",
   "search", "検索", "category", "カテゴリ", "home", "ホーム",
   "top", "トップ", "back", "戻る", "help", "ヘルプ",
   "contact", "お問い合わせ", "unknown", "不明", "n/a",
   "none", "null", "送料", "出品", "webshop", "キャンペーン",
   "発送予定", "買い取り", "下取り", "ポイント", "査定",
   "商品ピックアップ情報", "pickup item", "検索該当件数",
   "全17件", "全件", "件数"]

/-- Punctuation set of the symbols-only rejection (source line 695). -/
def punctuation_chars : List Char :=
  ['.', ',', ';', ':', '!', '?', '(', ')', '-', '[', ']', '\x7b', '\x7d',
   '/', '*', '+', '=', '・']

/-- Search of the compiled canonical-price pattern (source line 666): a
yen sign followed by optional whitespace and a digit/comma run, or a
digit/comma run followed by the kanji `円`, anywhere in the string. -/
def pricePatSearch : List Char → Bool
  | [] => false
  | c :: rest =>
    ((c == '¥' && (match rest.dropWhile Char.isWhitespace with
                   | d :: _ => isDigitComma d
                   | [] => false))
      || (isDigitComma c && rest.head? == some '円'))
    || pricePatSearch rest

/-- `is_valid_product` (source lines 647-698), with the source's early
returns laid out as nested conditionals in source order (the locals
`name`, `price` and `name_lower` of the source are inlined).  The leading
`isinstance` guard is omitted: every record of the embedding is a dict. -/
def is_valid_product (p : Product) : Bool :=
  if pyTrim p.name == "" || (pyTrim p.name).length < 5 then false
  else if p.link == "" || !(pyStartsWith p.link "http") then false
  else if pyTrim p.price == "" || pyTrim p.price == "価格確認中" then false
  else if !(pricePatSearch (pyTrim p.price).toList) then false
  else if noise_texts.any (fun ns =>
      pyLower (pyTrim p.name) == ns || pyStartsWith (pyLower (pyTrim p.name)) (ns ++ " ")
        || strContains (pyLower (pyTrim p.name)) ns) then false
  else if ((pyTrim p.name).toList.filter (fun c => c != ' ')).length < 5 then false
  else if ((pyTrim p.name).toList.filter (fun c => c != ' ')).all
      (fun c => punctuation_chars.contains c) then false
  else true

/-- `is_high_value_product` (source lines 138-141). -/
def is_high_value_product (p : Product) : Bool :=
  decide (100000 ≤ extract_price_value p.price)

/-- The fixed keyword list set in the constructor (source line 55). -/
def special_keywords : List String :=
  ["ダブルトップ", "ラティス", "doubletop", "lattice"]

/-- `has_special_keywords` (source lines 143-146). -/
def has_special_keywords (product_name : String) : Bool :=
  special_keywords.any (fun kw => strContains (pyLower product_name) (pyLower kw))

/-- One entry of the `stores` configuration dict of the constructor. -/
structure StoreInfo where
  key : String
  name : String
  url : String
  base_url : String
deriving DecidableEq, Repr

/-- The `stores` dict (source lines 24-50), in insertion order. -/
def stores : List StoreInfo :=
  [⟨"ikebe", "イケベ楽器店",
    "https://www.ikebe-gakki.com/Form/Product/ProductList.aspx?shop=0&cat=agt003&bid=ec&dpcnt=20&img=1&sort=07&udns=1&fpfl=0&sfl=0&pno=1",
    "https://www.ikebe-gakki.com"⟩,
   ⟨"kurosawa", "黒澤楽器店",
    "https://shop.kurosawagakki.com/items/search/classic-guitar",
    "https://shop.kurosawagakki.com"⟩,
   ⟨"shimamura", "島村楽器",
    "https://store.shimamura.co.jp/ec/Facet?category_0=11040000000",
    "https://store.shimamura.co.jp"⟩,
   ⟨"qsic", "QSic",
    "https://www.qsic.jp/?mode=cate&cbid=790427&csid=0&sort=n",
    "https://www.qsic.jp"⟩,
   ⟨"jguitar", "J-Guitar",
    "https://www.j-guitar.com/products/list.php?category_id=103&category_id1=1",
    "https://www.j-guitar.com"⟩]

/-- Lookup `self.stores[store_key]['name']`; the store keys occurring in
snapshots are always among the five of `stores`. -/
def storeDisplayName (store_key : String) : String :=
  ((stores.find? (fun st => st.key == store_key)).map StoreInfo.name).getD ""

/-! Source parsers.  The page markup is abstracted to exactly the data
each parser inspects: hyperlink elements with their text and the texts of
their enclosing containers, the flattened page text, table cells, or
generic containers with parent/sibling texts. -/

/-- A hyperlink element of the page: its target, its stripped text, and
the raw texts of its ancestor containers, innermost first. -/
structure LinkElem where
  href : String
  text : String
  ancestorTexts : List String
deriving Repr

/-- `find_nearby_price` (source lines 600-611): first price extracted
from the texts of up to three enclosing containers. -/
def find_nearby_price (ancestorTexts : List String) : Option String :=
  (ancestorTexts.take 3).findSome? extract_price_from_text

/-- The guard `if self.is_valid_product(product): products.append(...)`
shared by all five parsers. -/
def validGate (p : Product) : Option Product :=
  if is_valid_product p then some p else none

/-- URL substrings accepted by the ikebe link classifier. -/
def product_indicators : List String := ["pid=", "/detail", "ProductDetail", "/item/"]

/-- URL substrings rejected by the ikebe link classifier. -/
def exclude_indicators : List String :=
  ["javascript:", "mailto:", "#", "/search", "/category", "/cart",
   "/login", "/register", "/help", "/contact", "/company", "/privacy",
   "facebook.com", "twitter.com", "instagram.com", "youtube.com",
   "sort=", "page=", "pno=", "img=", "dpcnt="]

/-- Brand names of the ikebe link-text fallback. -/
def instrument_brands : List String :=
  ["yamaha", "fender", "gibson", "martin", "taylor", "hernandez", "yacopi", "yairi"]

/-- `is_ikebe_product_link` (source lines 573-598).  Note that the
indicator `ProductDetail` is compared against the lowercased URL in the
source and hence can never match; the embedding keeps it as written. -/
def is_ikebe_product_link (href text : String) : Bool :=
  let href_lower := pyLower href
  if exclude_indicators.any (fun e => strContains href_lower e) then false
  else if product_indicators.any (fun ind => strContains href_lower ind) then true
  else if text != "" && 1 < text.length then
    if instrument_brands.any (fun b => strContains (pyLower text) b) then
      pyStartsWith href "/" || strContains href "ikebe-gakki.com"
    else false
  else false

/-- Per-link body of the ikebe loop (source lines 213-233). -/
def ikebeCandidate (h : String → Int) (uj : String → String → String)
    (now base : String) (l : LinkElem) : Option Product :=
  if is_ikebe_product_link l.href l.text then
    match find_nearby_price l.ancestorTexts with
    | none => none
    | some price_info =>
      if price_info == "" || price_info == "価格確認中" then none
      else validGate (create_product_info h now "ikebe" l.text (some price_info)
        (uj base l.href) "イケベ楽器店")
  else none

/-- `parse_ikebe_products` (source lines 208-235). -/
def parse_ikebe_products (h : String → Int) (uj : String → String → String)
    (now base : String) (links : List LinkElem) : List Product :=
  links.filterMap (ikebeCandidate h uj now base)

/-- Negative terms of the shimamura link-text filter. -/
def shimamura_skip_terms : List String := ["送料", "出品", "webshop"]

/-- Per-link body of the shimamura loop (source lines 313-333). -/
def shimamuraCandidate (h : String → Int) (uj : String → String → String)
    (now base : String) (l : LinkElem) : Option Product :=
  if l.text != "" && 5 < l.text.length
      && !(shimamura_skip_terms.any (fun sk => strContains (pyLower l.text) sk)) then
    match find_nearby_price l.ancestorTexts with
    | none => none
    | some price_info =>
      if price_info == "" || price_info == "価格確認中" then none
      else validGate (create_product_info h now "shimamura" l.text (some price_info)
        (uj base l.href) "島村楽器")
  else none

/-- `parse_shimamura_products` (source lines 308-335): only hyperlinks
whose target contains the product path are considered. -/
def parse_shimamura_products (h : String → Int) (uj : String → String → String)
    (now base : String) (links : List LinkElem) : List Product :=
  (links.filter (fun l => strContains l.href "/ec/pro/disp/")).filterMap
    (shimamuraCandidate h uj now base)

/-- Flattening of the page text used by the line-based parsers (source
lines 243 and 343): split at newlines, trim, drop blank lines. -/
def pyLines (text : String) : List String :=
  (((text.toList.splitOnP (fun c => c == '\n')).map
      (fun l => String.mk (trimChars l))).filter (fun l => l != ""))

/-- Python `str.split()` with no argument: maximal non-whitespace runs. -/
def pySplitWS (s : String) : List (List Char) :=
  (s.toList.splitOnP Char.isWhitespace).filter (fun w => !w.isEmpty)

/-- Brand allow-list of the kurosawa parser (source line 250). -/
def kurosawa_brand_patterns : List String :=
  ["Juan Hernandez", "Gibson", "Cordoba", "ARIA", "YAMAHA", "その他", "桜井 正毅"]

/-- Skip terms for the kurosawa product-name line (source line 259). -/
def kurosawa_name_skip_terms : List String := ["在庫", "状態", "ポイント", "送料"]

/-- First-match capture of `re.search(r'¥\s*([\d,]+)', line)`: the
digit/comma run after the first yen sign that is followed, past optional
whitespace, by at least one digit or comma.  The guarding search
`re.search(r'¥\s*[\d,]+', line)` of the source succeeds exactly when this
returns a group. -/
def yenDigitsGroup : List Char → Option (List Char)
  | [] => none
  | c :: rest =>
    if c == '¥' then
      let run := (rest.dropWhile Char.isWhitespace).takeWhile isDigitComma
      if run.isEmpty then yenDigitsGroup rest else some run
    else yenDigitsGroup rest

/-- Price look-ahead of the kurosawa parser (source lines 263-272): scan
at most `window` lines (the source range gives seven, starting directly
after the brand line) for the first line matching the yen price pattern;
the price is captured from that line and the scan breaks there, since the
`break` of line 272 sits inside the `if re.search` block.  Lines without
a yen match are passed over. -/
def kurosawaFindPrice : List String → Nat → Option String
  | _, 0 => none
  | [], _ => none
  | lj :: rest, window + 1 =>
    match yenDigitsGroup lj.toList with
    | some g => some ("¥" ++ String.mk g)
    | none => kurosawaFindPrice rest window

/-- Loop body of `parse_kurosawa_products_fixed` (source lines 245-304).
The while loop over the line index is written as structural recursion on
the remaining suffix of the line list (advancing the index by one or two
is recursing on the suffix or its tail).  The price is searched in a
window of up to seven lines after the brand line. -/
def kurosawaGo (h : String → Int) (uj : String → String → String) (now base : String)
    (product_links : List String) : List String → List Product → List Product
  | [], products => products
  | [_], products => products
  | line :: rest@(product_name_line :: rest2), products =>
    if kurosawa_brand_patterns.any (fun b => strContains line b)
        && (pySplitWS line).length ≤ 4 then
      if kurosawa_name_skip_terms.any
          (fun sk => strContains (pyLower product_name_line) sk) then
        kurosawaGo h uj now base product_links rest products
      else
        match kurosawaFindPrice (product_name_line :: rest2) 7 with
        | none => kurosawaGo h uj now base product_links rest2 products
        | some price =>
          let product_url :=
            if !product_links.isEmpty && products.length < product_links.length then
              uj base (product_links.getD products.length "")
            else base
          let full_name := pyTrim (line ++ " " ++ product_name_line)
          let products2 :=
            match validGate (create_product_info h now "kurosawa" full_name
                (some price) product_url "黒澤楽器店") with
            | some p => products ++ [p]
            | none => products
          kurosawaGo h uj now base product_links rest2 products2
    else kurosawaGo h uj now base product_links rest products

/-- `parse_kurosawa_products_fixed` (source lines 237-306): `textContent`
is the flattened page text, `hrefs` the targets of all hyperlinks of the
page (the positional URL fallback selects those containing `/items/`);
output capped at 15. -/
def parse_kurosawa_products_fixed (h : String → Int) (uj : String → String → String)
    (now base : String) (textContent : String) (hrefs : List String) : List Product :=
  (kurosawaGo h uj now base (hrefs.filter (fun x => strContains x "/items/"))
    (pyLines textContent) []).take 15

/-- First-match capture of `re.search(r'\[([^\]]+)\]', line)`. -/
def bracketGroup : List Char → Option (List Char)
  | [] => none
  | c :: rest =>
    if c == '[' then
      let run := rest.takeWhile (fun d => d != ']')
      if run.isEmpty then bracketGroup rest
      else if (rest.drop run.length).head? == some ']' then some run
      else bracketGroup rest
    else bracketGroup rest

/-- Python `s.split(sep, 1)[-1]` for a one-character separator: the part
after the first occurrence, or the whole string if absent. -/
def afterFirstChar (ch : Char) (s : String) : String :=
  match s.toList.dropWhile (fun c => c != ch) with
  | [] => s
  | _ :: rest => String.mk rest

/-- First-match capture of `re.search(r'([\d,]+)円\(税込\)', line)`: the
maximal digit/comma run at the leftmost position that is immediately
followed by the tax-inclusive marker. -/
def qsicPriceGroup : List Char → Option (List Char)
  | c :: rest =>
    if isDigitComma c then
      let run := (c :: rest).takeWhile isDigitComma
      if "円(税込)".toList.isPrefixOf ((c :: rest).drop run.length) then some run
      else qsicPriceGroup rest
    else qsicPriceGroup rest
  | [] => none

/-- Price look-ahead of the qsic parser (source lines 364-371): scan at
most `window` lines for the first one containing the tax-inclusive
marker; on that line alone attempt the price capture, then stop. -/
def qsicFindPrice : List String → Nat → Option String
  | _, 0 => none
  | [], _ => none
  | lj :: rest, window + 1 =>
    if strContains lj "円(税込)" then
      (qsicPriceGroup lj.toList).map (fun g => "¥" ++ String.mk g)
    else qsicFindPrice rest window

/-- The guard of source line 357 on the line after a product line: it
must start with a bracket and contain a closing bracket. -/
def qsicCondLine : List String → Option String
  | cl :: _ => if pyStartsWith cl "[" && strContains cl "]" then some cl else none
  | [] => none

/-- Loop body of `parse_qsic_products_fixed` (source lines 345-398).  The
while loop over the line index is written as structural recursion on the
remaining suffix of the line list; advancing the index by three past a
consumed product recurses on the suffix two further in (reaching the end
earlier terminates the loop as in the source). -/
def qsicGo (h : String → Int) (now base : String) :
    List String → List Product → List Product
  | [], products => products
  | line :: rest, products =>
    if strContains line "【返品OK】" && strContains line "[" && strContains line "]" then
      match qsicFindPrice rest 3 with
      | none => qsicGo h now base rest products
      | some price =>
        let condition :=
          match qsicCondLine rest with
          | some cl =>
            match bracketGroup cl.toList with
            | some grp => String.mk grp
            | none => ""
          | none => ""
        let description :=
          match qsicCondLine rest with
          | some cl => pyTrim (afterFirstChar ']' cl)
          | none => ""
        let full_name0 := pyTrim (String.mk (beforeFirst "【返品OK】".toList line.toList))
        let full_name1 :=
          if condition != "" then full_name0 ++ " [" ++ condition ++ "]" else full_name0
        let full_name :=
          if description != "" then full_name1 ++ " " ++ description else full_name1
        let products2 :=
          match validGate (create_product_info h now "qsic" full_name (some price)
              base "QSic") with
          | some p => products ++ [p]
          | none => products
        match rest with
        | _ :: _ :: rest3 => qsicGo h now base rest3 products2
        | _ => products2
    else qsicGo h now base rest products

/-- `parse_qsic_products_fixed` (source lines 337-400): every record is
created with the store base URL as its link. -/
def parse_qsic_products_fixed (h : String → Int) (now base : String)
    (textContent : String) : List Product :=
  qsicGo h now base (pyLines textContent) []

/-- Noise terms of the jguitar product-name classifier (source lines
481-485). -/
def jguitar_noise_patterns : List String :=
  ["詳細", "detail", "価格", "price", "在庫", "stock", "送料", "shipping",
   "ログイン", "login", "メニュー", "menu", "カート", "cart", "検索", "search",
   "年", "月", "日", "お問い合わせ", "contact", "ページ", "page"]

/-- Positive indicators of the jguitar product-name classifier (source
lines 492-508). -/
def jguitar_positive_indicators : List String :=
  ["yamaha", "gibson", "fender", "martin", "taylor", "ibanez",
   "ramirez", "hernandez", "cordoba", "godin", "alhambra",
   "河野", "桜井", "黒澤", "中村", "kohno", "sakurai",
   "classical", "flamenco", "guitar", "ギター", "クラシック", "フラメンコ",
   "nylon", "ナイロン", "cedar", "spruce", "rosewood", "ebony",
   "セダー", "スプルース", "ローズウッド", "エボニー",
   "19", "20", "model", "no.", "#", "vintage", "ヴィンテージ",
   "650mm", "640mm", "630mm", "scale", "top", "back", "side"]

/-- `is_likely_jguitar_product_name` (source lines 475-516).  The source
also computes an alphanumeric flag that does not enter the result; the
returned value is positive-indicator presence conjoined with the length
bounds. -/
def is_likely_jguitar_product_name (text : String) : Bool :=
  if text == "" || text.length < 10 then false
  else
    let text_lower := pyLower text
    if jguitar_noise_patterns.any (fun ns => strContains text_lower ns) then false
    else
      let has_positive :=
        jguitar_positive_indicators.any (fun ind => strContains text_lower ind)
      let has_good_length := 10 ≤ text.length && text.length ≤ 150
      has_positive && has_good_length

/-- A table cell: stripped text (used for name detection), raw text (used
for price search), and the target of its first contained hyperlink. -/
structure Cell where
  textStripped : String
  textRaw : String
  linkHref : Option String
deriving Repr

/-- `find_price_in_cell_or_nearby` (source lines 518-532): the cell's own
raw text first, then every cell of the row. -/
def find_price_in_cell_or_nearby (cell : Cell) (row : List Cell) : Option String :=
  match extract_price_from_text cell.textRaw with
  | some price => some price
  | none => row.findSome? (fun other => extract_price_from_text other.textRaw)

/-- Per-row body of the jguitar table scan (source lines 415-459): rows
with at least two cells; the first cell classified as a product name
supplies name, link and the primary price search; a row-wide raw-text
price search is the fallback. -/
def jguitarRowProduct (h : String → Int) (uj : String → String → String)
    (now base : String) (row : List Cell) : Option Product :=
  if 2 ≤ row.length then
    match row.find? (fun cell => is_likely_jguitar_product_name cell.textStripped) with
    | none => none
    | some cell =>
      let product_name := cell.textStripped
      let price0 := find_price_in_cell_or_nearby cell row
      let product_url :=
        match cell.linkHref with
        | some hr => uj base hr
        | none => base
      let price :=
        match price0 with
        | some pr => some pr
        | none => row.findSome? (fun c => extract_price_from_text c.textRaw)
      match price with
      | none => none
      | some pr =>
        validGate (create_product_info h now "jguitar" product_name (some pr)
          product_url "J-Guitar")
  else none

/-- A generic container element of the alternative jguitar scan: stripped
own text, raw parent text, raw next-sibling text. -/
structure DivElem where
  textStripped : String
  parentText : Option String
  nextSiblingText : Option String
deriving Repr

/-- Per-container body of `parse_jguitar_alternative_structure` (source
lines 534-571). -/
def jguitarAltCandidate (h : String → Int) (now base : String)
    (d : DivElem) : Option Product :=
  if is_likely_jguitar_product_name d.textStripped then
    let price0 :=
      match d.parentText with
      | some t => extract_price_from_text t
      | none => none
    let price :=
      match price0 with
      | some pr => some pr
      | none =>
        match d.nextSiblingText with
        | some t => extract_price_from_text t
        | none => none
    match price with
    | none => none
    | some pr =>
      validGate (create_product_info h now "jguitar" d.textStripped (some pr)
        base "J-Guitar")
  else none

/-- `parse_jguitar_alternative_structure` (source lines 534-571). -/
def parse_jguitar_alternative_structure (h : String → Int) (now base : String)
    (divs : List DivElem) : List Product :=
  divs.filterMap (jguitarAltCandidate h now base)

/-- Deduplication by exact name with a seen set, keeping first
occurrences (source lines 466-471). -/
def dedupByName : List Product → List String → List Product
  | [], _ => []
  | p :: rest, seen =>
    if seen.contains p.name then dedupByName rest seen
    else p :: dedupByName rest (p.name :: seen)

/-- `parse_jguitar_products_improved` (source lines 402-473): table rows
first, the alternative container scan when fewer than five table products
were found, then name deduplication and the cap at 15. -/
def parse_jguitar_products_improved (h : String → Int) (uj : String → String → String)
    (now base : String) (tables : List (List (List Cell))) (divs : List DivElem) :
    List Product :=
  let products := tables.flatMap (fun rows => rows.filterMap (jguitarRowProduct h uj now base))
  let products2 :=
    if products.length < 5 then
      products ++ parse_jguitar_alternative_structure h now base divs
    else products
  (dedupByName products2 []).take 15

/-! Snapshots and the novelty/filter/notification pipeline. -/

/-- A snapshot: the mapping source key to record list, in dict insertion
order (keys are unique in the running program). -/
abbrev Snapshot := List (String × List Product)

/-- Dict lookup on a snapshot mapping (`snap[key]` when present). -/
def snapGet (snap : Snapshot) (k : String) : Option (List Product) :=
  (snap.find? (fun kv => kv.1 == k)).map Prod.snd

/-- The id set `previous_ids` of `find_new_products` (source line 730):
ids of the previous snapshot's list for a source,
`previous_products.get(store_key, [])` defaulting to the empty list. -/
def previousIds (previous : Snapshot) (store_key : String) : List String :=
  ((snapGet previous store_key).getD []).map Product.id

/-- `find_new_products` (source lines 724-737): per source of the current
snapshot, keep the records whose id is absent from the previous snapshot's
id set for that source; sources with no such record are omitted. -/
def find_new_products (current previous : Snapshot) : Snapshot :=
  current.filterMap (fun kv =>
    if (kv.2.filter (fun p => !((previousIds previous kv.1).contains p.id))).isEmpty
    then none
    else some (kv.1, kv.2.filter (fun p => !((previousIds previous kv.1).contains p.id))))

/-- `filter_high_value_products` (source lines 739-748). -/
def filter_high_value_products (all_new_products : Snapshot) : Snapshot :=
  all_new_products.filterMap (fun kv =>
    if (kv.2.filter is_high_value_product).isEmpty then none
    else some (kv.1, kv.2.filter is_high_value_product))

/-- One line of the special-keyword header section of the notification. -/
structure SpecialItem where
  store : String
  name : String
  price : String
deriving DecidableEq, Repr

/-- `detect_special_keywords` (source lines 750-763): flat list of
store-display-name/name/price entries, source order then record order. -/
def detect_special_keywords (all_new_products : Snapshot) : List SpecialItem :=
  all_new_products.flatMap (fun kv =>
    kv.2.filterMap (fun p =>
      if has_special_keywords p.name then
        some ⟨storeDisplayName kv.1, p.name, p.price⟩
      else none))

/-- Total record count of a snapshot-shaped mapping
(`sum(len(products) for products in ....values())`). -/
def totalCount (snap : Snapshot) : Nat := (snap.map (fun kv => kv.2.length)).sum

/-- Subject line of the notification (source line 785). -/
def subjectLine (total_new : Nat) : String :=
  "🎸 高価格新商品が" ++ toString total_new
    ++ "件見つかりました - 5サイト統合監視（毎日・10万円以上のみ） [GitHub Actions]"

/-- The notification message handed to the mail transport. -/
structure MailMessage where
  subject : String
  specialSection : List SpecialItem
  sections : Snapshot
deriving DecidableEq, Repr

/-- Message construction of `send_email` (source lines 774-834): the
novelty mapping is high-value filtered; when the total filtered count is
zero no message is built (sending is skipped); otherwise the message
carries the subject with the total count, the keyword-flagged entries of
the filtered mapping as its highlighted header section, and the filtered
mapping as its per-source body sections. -/
def compose_message (all_new_products : Snapshot) : Option MailMessage :=
  if totalCount (filter_high_value_products all_new_products) = 0 then none
  else some
    { subject := subjectLine (totalCount (filter_high_value_products all_new_products))
      specialSection := detect_special_keywords (filter_high_value_products all_new_products)
      sections := filter_high_value_products all_new_products }

/-- Outcome of one `send_email` call: the config guard of line 770, the
skip of line 778, a successful SMTP submission, or a transport exception
caught by the handler of line 846. -/
inductive SendOutcome where
  | configError
  | skippedNoHighValue
  | sent
  | transportError
deriving DecidableEq, Repr

/-- `send_email` (source lines 765-847): outcome together with the message
handed to the SMTP transport, when one was.  `configOk` stands for the
presence of the three credentials, `transportOk` for the SMTP session not
raising. -/
def send_email (configOk transportOk : Bool) (all_new_products : Snapshot) :
    SendOutcome × Option MailMessage :=
  if !configOk then (SendOutcome.configError, none)
  else
    match compose_message all_new_products with
    | none => (SendOutcome.skippedNoHighValue, none)
    | some msg =>
      if transportOk then (SendOutcome.sent, some msg)
      else (SendOutcome.transportError, some msg)

/-- Observable steps of one `check_for_updates` run, in order. -/
inductive RunEvent where
  | notified (outcome : SendOutcome)
  | savedSnapshot (snap : Snapshot)
deriving DecidableEq, Repr

/-- Event trace of `check_for_updates` (source lines 849-887): when no
source yielded any record the run warns and returns without saving;
otherwise the notifier runs exactly when some novelty exists, and the
current snapshot is saved afterwards in every case. -/
def check_for_updates (configOk transportOk : Bool) (current previous : Snapshot) :
    List RunEvent :=
  if !(current.any (fun kv => !kv.2.isEmpty)) then []
  else
    (if !(find_new_products current previous).isEmpty then
        [RunEvent.notified
          (send_email configOk transportOk (find_new_products current previous)).1]
      else [])
      ++ [RunEvent.savedSnapshot current]

/-! Helper lemmas about the validation gate, snapshot lookups, and the
filtered-mapping shape shared by novelty detection and high-value
filtering. -/

theorem validGate_eq_some {q p : Product} (h : validGate q = some p) :
    is_valid_product p = true := by
  unfold validGate at h
  split at h
  · cases h; assumption
  · cases h

theorem snapGet_eq_none {s : Snapshot} {k : String}
    (h : ∀ kv ∈ s, kv.1 ≠ k) : snapGet s k = none := by
  unfold snapGet
  rw [List.find?_eq_none.2]
  · rfl
  · intro kv hkv
    simpa using h kv hkv

theorem filterShape_mem {g : String → List Product → List Product} {s : Snapshot}
    {kv : String × List Product}
    (h : kv ∈ s.filterMap (fun kv =>
        if (g kv.1 kv.2).isEmpty then none else some (kv.1, g kv.1 kv.2))) :
    ∃ l, (kv.1, l) ∈ s ∧ kv.2 = g kv.1 l := by
  rcases List.mem_filterMap.1 h with ⟨a, ha, hfa⟩
  split at hfa
  · cases hfa
  · cases hfa
    exact ⟨a.2, by simpa using ha, rfl⟩

theorem snapGet_filterShape (g : String → List Product → List Product) :
    ∀ s : Snapshot, (s.map Prod.fst).Nodup → ∀ k l, (k, l) ∈ s →
    snapGet (s.filterMap (fun kv =>
        if (g kv.1 kv.2).isEmpty then none else some (kv.1, g kv.1 kv.2))) k =
      (if (g k l).isEmpty then none else some (g k l)) := by
  intro s
  induction s with
  | nil => intro _ k l hm; cases hm
  | cons kv rest ih =>
    intro hnd k l hm
    have hnd1 : kv.1 ∉ rest.map Prod.fst := (List.nodup_cons.1 (by simpa using hnd)).1
    have hnd2 : (rest.map Prod.fst).Nodup := (List.nodup_cons.1 (by simpa using hnd)).2
    rw [List.filterMap_cons]
    rcases List.mem_cons.1 hm with heq | hrest
    · have hkv : kv = (k, l) := heq.symm
      subst hkv
      have hnd1k : k ∉ rest.map Prod.fst := by simpa using hnd1
      dsimp only
      by_cases hge : (g k l).isEmpty
      · rw [if_pos hge, if_pos hge]
        refine snapGet_eq_none ?_
        intro kv2 hkv2
        rcases List.mem_filterMap.1 hkv2 with ⟨a, ha, hfa⟩
        have h1 : kv2.1 = a.1 := by
          split at hfa
          · cases hfa
          · cases hfa; rfl
        rw [h1]
        intro hak
        have hmem : a.1 ∈ rest.map Prod.fst := List.mem_map_of_mem Prod.fst ha
        rw [hak] at hmem
        exact hnd1k hmem
      · rw [if_neg hge, if_neg hge]
        show snapGet ((k, g k l) :: _) k = some (g k l)
        unfold snapGet
        rw [List.find?_cons_of_pos _ (by simp)]
        rfl
    · have hkmem : k ∈ rest.map Prod.fst := List.mem_map.2 ⟨(k, l), hrest, rfl⟩
      have hkne : kv.1 ≠ k := fun hk => hnd1 (hk ▸ hkmem)
      have ihr := ih hnd2 k l hrest
      split
      · exact ihr
      · rename_i b hsome
        have hb1 : b.1 = kv.1 := by
          split at hsome
          · cases hsome
          · cases hsome; rfl
        unfold snapGet
        rw [List.find?_cons_of_neg _ (by simp [hb1]; exact hkne)]
        exact ihr

theorem detect_special_keywords_mem (m : Snapshot) (it : SpecialItem) :
    it ∈ detect_special_keywords m ↔
      ∃ k ps, (k, ps) ∈ m ∧ ∃ p ∈ ps, has_special_keywords p.name = true ∧
        it = ⟨storeDisplayName k, p.name, p.price⟩ := by
  unfold detect_special_keywords
  rw [List.mem_flatMap]
  constructor
  · rintro ⟨kv, hkv, hit⟩
    rcases List.mem_filterMap.1 hit with ⟨p, hp, hfp⟩
    split at hfp
    · rename_i hkw
      cases hfp
      exact ⟨kv.1, kv.2, by simpa using hkv, p, hp, hkw, rfl⟩
    · cases hfp
  · rintro ⟨k, ps, hm, p, hp, hkw, rfl⟩
    refine ⟨(k, ps), hm, List.mem_filterMap.2 ⟨p, hp, ?_⟩⟩
    rw [if_pos hkw]

theorem listInfix_append (n pre suf : List Char) : listInfix n (pre ++ n ++ suf) = true := by
  induction pre with
  | nil =>
    cases n with
    | nil =>
      cases suf with
      | nil => rfl
      | cons c cs => simp [listInfix, List.isPrefixOf]
    | cons x xs =>
      have hpre : (x :: xs).isPrefixOf ((x :: xs) ++ suf) = true :=
        List.isPrefixOf_iff_prefix.2 ⟨suf, rfl⟩
      simp only [List.cons_append] at hpre
      simp only [List.nil_append, List.cons_append, listInfix]
      simp [hpre]
  | cons p ps ih =>
    simp only [List.append_assoc] at ih
    simp only [List.cons_append, List.append_assoc, listInfix]
    simp [ih]

theorem strContains_middle (a b c : String) : strContains (a ++ b ++ c) b = true := by
  unfold strContains
  have hdata : (a ++ b ++ c).toList = a.toList ++ b.toList ++ c.toList := by
    show (a ++ b ++ c).data = a.data ++ b.data ++ c.data
    rw [String.data_append, String.data_append]
  rw [hdata]
  exact listInfix_append _ _ _

/-! Concrete snapshots used by witnesses and counterexamples. -/

/-- Witness record already present in the previous snapshot. -/
def wProdA : Product :=
  ⟨"a1", "Gibson J-45 Vintage", "¥120,000", "https://x/1", "ikebe", "イケベ楽器店", "D1"⟩

/-- Witness record new in the current snapshot. -/
def wProdB : Product :=
  ⟨"b2", "YAMAHA GC-32C Classical", "¥275,000", "https://x/2", "ikebe", "イケベ楽器店", "D1"⟩

/-- Witness record below the high-value threshold. -/
def wCheap : Product :=
  ⟨"c3", "Cordoba C5 Nylon Guitar", "¥80,000", "https://x/3", "ikebe", "イケベ楽器店", "D1"⟩

/-- High-value novelty record without a keyword. -/
def rHigh : Product :=
  ⟨"q1", "Jose Ramirez 1A Classical", "¥150,000", "https://www.qsic.jp", "qsic", "QSic", "D1"⟩

/-- Keyword-bearing novelty record below the threshold. -/
def rLat80 : Product :=
  ⟨"q2", "Lattice Classical Guitar 640mm", "¥80,000", "https://www.qsic.jp", "qsic", "QSic", "D1"⟩

/-- The same listing as `rLat80` at a high price. -/
def rLat200 : Product :=
  ⟨"q2", "Lattice Classical Guitar 640mm", "¥200,000", "https://www.qsic.jp", "qsic", "QSic", "D1"⟩

/-- Novelty mapping containing a keyword record below the threshold. -/
def novA : Snapshot := [("qsic", [rHigh, rLat80])]

/-- The same novelty mapping with only the keyword record's price raised. -/
def novB : Snapshot := [("qsic", [rHigh, rLat200])]

/-- A current snapshot in which every source yielded zero records. -/
def allEmptySnapshot : Snapshot :=
  [("ikebe", []), ("kurosawa", []), ("shimamura", []), ("qsic", []), ("jguitar", [])]

/-! Claim theorems for the novelty/filter/notification pipeline. -/

/-- C1: for every pair of snapshots, the novelty lookup at a source of the
current snapshot is exactly the current list filtered to records whose id
is not among the previous snapshot's ids for that source, omitted when the
filter is empty (first conjunct); with an empty previous snapshot the
novelty mapping keeps exactly the sources with non-empty current lists,
each with its full current list (second conjunct); and a source whose
current ids are all contained in the previous ids — in particular one with
an identical id set — is omitted (third conjunct). -/
theorem C1_novelty_detection :
    (∀ current previous : Snapshot, (current.map Prod.fst).Nodup →
      ∀ k cur, (k, cur) ∈ current →
        snapGet (find_new_products current previous) k =
          (if (cur.filter (fun p => !((previousIds previous k).contains p.id))).isEmpty
           then none
           else some (cur.filter (fun p => !((previousIds previous k).contains p.id))))) ∧
    (∀ current : Snapshot, find_new_products current [] =
        current.filter (fun kv => !kv.2.isEmpty)) ∧
    (∀ current previous : Snapshot, (current.map Prod.fst).Nodup →
      ∀ k cur, (k, cur) ∈ current →
        (∀ p ∈ cur, p.id ∈ previousIds previous k) →
        snapGet (find_new_products current previous) k = none) := by
  have hchar : ∀ current previous : Snapshot, (current.map Prod.fst).Nodup →
      ∀ k cur, (k, cur) ∈ current →
        snapGet (find_new_products current previous) k =
          (if (cur.filter (fun p => !((previousIds previous k).contains p.id))).isEmpty
           then none
           else some (cur.filter (fun p => !((previousIds previous k).contains p.id)))) := by
    intro current previous hnd k cur hm
    exact snapGet_filterShape
      (fun k l => l.filter (fun p => !((previousIds previous k).contains p.id)))
      current hnd k cur hm
  refine ⟨hchar, ?_, ?_⟩
  · intro current
    unfold find_new_products
    induction current with
    | nil => rfl
    | cons kv rest ih =>
      rw [List.filterMap_cons, List.filter_cons]
      have hfix : kv.2.filter (fun p => !((previousIds [] kv.1).contains p.id)) = kv.2 := by
        rw [List.filter_eq_self]
        intro a _
        simp [previousIds, snapGet]
      rw [hfix]
      by_cases he : kv.2.isEmpty
      · rw [if_pos he]
        simp only [he, Bool.not_true, Bool.false_eq_true, if_false]
        exact ih
      · rw [if_neg he]
        have hne : (!kv.2.isEmpty) = true := by simp [he]
        simp only [hne, if_true]
        rw [ih]
  · intro current previous hnd k cur hm hsub
    rw [hchar current previous hnd k cur hm]
    rw [if_pos]
    rw [List.isEmpty_iff]
    rw [List.filter_eq_nil_iff]
    intro p hp
    simp [hsub p hp]

/-- Witness for C1 at a concrete pair of snapshots: the lookup hypothesis
and key-uniqueness hypothesis are discharged by evaluation. -/
theorem C1_novelty_detection_witness :
    snapGet (find_new_products [("ikebe", [wProdA, wProdB])] [("ikebe", [wProdA])]) "ikebe" =
      (if ([wProdA, wProdB].filter
            (fun p => !((previousIds [("ikebe", [wProdA])] "ikebe").contains p.id))).isEmpty
       then none
       else some ([wProdA, wProdB].filter
            (fun p => !((previousIds [("ikebe", [wProdA])] "ikebe").contains p.id)))) :=
  C1_novelty_detection.1 [("ikebe", [wProdA, wProdB])] [("ikebe", [wProdA])]
    (by decide) "ikebe" [wProdA, wProdB] (by decide)

/-- C5: the high-value lookup at a source of the novelty mapping is
exactly that source's novelty list filtered by the threshold predicate,
omitted when empty (first conjunct); membership in the filtered list is
membership in the novelty list together with a parsed price of at least
100000 (second conjunct); and every entry of the filtered mapping is the
threshold filter — hence a sublist, so a subset — of a novelty entry for
the same source (third conjunct). -/
theorem C5_high_value_filter :
    (∀ nov : Snapshot, (nov.map Prod.fst).Nodup → ∀ k l, (k, l) ∈ nov →
      snapGet (filter_high_value_products nov) k =
        (if (l.filter is_high_value_product).isEmpty then none
         else some (l.filter is_high_value_product))) ∧
    (∀ (l : List Product) (p : Product),
      p ∈ l.filter is_high_value_product ↔
        p ∈ l ∧ 100000 ≤ extract_price_value p.price) ∧
    (∀ (nov : Snapshot) (kv : String × List Product), kv ∈ filter_high_value_products nov →
      ∃ l, (kv.1, l) ∈ nov ∧ kv.2 = l.filter is_high_value_product ∧ kv.2.Sublist l) := by
  refine ⟨?_, ?_, ?_⟩
  · intro nov hnd k l hm
    exact snapGet_filterShape (fun _ l => l.filter is_high_value_product) nov hnd k l hm
  · intro l p
    rw [List.mem_filter]
    unfold is_high_value_product
    simp
  · intro nov kv h
    obtain ⟨l, hl, he⟩ := filterShape_mem (g := fun _ l => l.filter is_high_value_product) h
    exact ⟨l, hl, he, he ▸ List.filter_sublist l⟩

/-- Witness for C5 at a concrete novelty mapping. -/
theorem C5_high_value_filter_witness :
    snapGet (filter_high_value_products [("ikebe", [wProdB, wCheap])]) "ikebe" =
      (if ([wProdB, wCheap].filter is_high_value_product).isEmpty then none
       else some ([wProdB, wCheap].filter is_high_value_product)) :=
  C5_high_value_filter.1 [("ikebe", [wProdB, wCheap])] (by decide) "ikebe"
    [wProdB, wCheap] (by decide)

/-- Counterexample to C3 as stated: in the run on `novA` the record
`rLat80` is a novelty record whose lowercased name contains the keyword
`lattice`, yet the keyword-flagged header list of the composed
notification is empty, because `send_email` applies the keyword filter to
the high-value-filtered mapping and `rLat80` is below the threshold; and
the run on `novB`, which differs from `novA` only in that record's price,
has the record in the flagged list — so membership does depend on
`priceValue`. -/
theorem C3_keyword_filter_counterexample :
    has_special_keywords rLat80.name = true ∧
    ("qsic", [rHigh, rLat80]) ∈ novA ∧ rLat80 ∈ [rHigh, rLat80] ∧
    (compose_message novA).map MailMessage.specialSection = some [] ∧
    (compose_message novB).map MailMessage.specialSection =
      some [⟨"QSic", "Lattice Classical Guitar 640mm", "¥200,000"⟩] :=
  ⟨by decide, by decide, by decide, by decide, by decide⟩

/-- C3 as amended: the keyword filter of the notification operates on the
high-value-filtered novelty output.  The header list of every composed
message is `detect_special_keywords` of the filtered mapping (first
conjunct), and an item is in that list exactly when some record of the
filtered mapping has a keyword in its lowercased name, rendered as the
store display name with the record's name and price, in source-iteration
then record order (second conjunct, via the flat-map order of
`detect_special_keywords`). -/
theorem C3_keyword_filter_amended :
    (∀ (nov : Snapshot) (m : MailMessage), compose_message nov = some m →
      m.specialSection = detect_special_keywords (filter_high_value_products nov)) ∧
    (∀ (nov : Snapshot) (it : SpecialItem),
      it ∈ detect_special_keywords (filter_high_value_products nov) ↔
        ∃ k ps, (k, ps) ∈ filter_high_value_products nov ∧ ∃ p ∈ ps,
          has_special_keywords p.name = true ∧
          it = ⟨storeDisplayName k, p.name, p.price⟩) := by
  constructor
  · intro nov m hm
    unfold compose_message at hm
    split at hm
    · cases hm
    · cases hm
      rfl
  · intro nov it
    exact detect_special_keywords_mem (filter_high_value_products nov) it

/-- Witness for C3 as amended, at the concrete run on `novB`. -/
theorem C3_keyword_filter_amended_witness :
    MailMessage.specialSection
        ⟨subjectLine 2, [⟨"QSic", "Lattice Classical Guitar 640mm", "¥200,000"⟩],
          [("qsic", [rHigh, rLat200])]⟩ =
      detect_special_keywords (filter_high_value_products novB) :=
  C3_keyword_filter_amended.1 novB _ (by decide)

/-- C4: a message is handed to the mail transport exactly when the
configuration is complete and the total high-value novelty count is
positive (first conjunct); with complete configuration and a zero total —
however much novelty exists — the outcome is the skip constructor, which
is distinct from both error outcomes, and nothing is handed over (second
conjunct); and every message handed over carries the subject line built
from the total, which contains the total's decimal rendering (third
conjunct). -/
theorem C4_notification_gating (configOk transportOk : Bool) (nov : Snapshot) :
    (((send_email configOk transportOk nov).2).isSome ↔
      (configOk = true ∧ 0 < totalCount (filter_high_value_products nov))) ∧
    (configOk = true → totalCount (filter_high_value_products nov) = 0 →
      send_email configOk transportOk nov = (SendOutcome.skippedNoHighValue, none)) ∧
    (∀ m : MailMessage, (send_email configOk transportOk nov).2 = some m →
      m.subject = subjectLine (totalCount (filter_high_value_products nov)) ∧
      strContains m.subject (toString (totalCount (filter_high_value_products nov))) = true) := by
  cases configOk with
  | false =>
    refine ⟨by simp [send_email], ?_, ?_⟩
    · intro hc; cases hc
    · intro m hm; simp [send_email] at hm
  | true =>
    have hse : send_email true transportOk nov =
        (match compose_message nov with
         | none => (SendOutcome.skippedNoHighValue, none)
         | some msg =>
           if transportOk then (SendOutcome.sent, some msg)
           else (SendOutcome.transportError, some msg)) := rfl
    by_cases h0 : totalCount (filter_high_value_products nov) = 0
    · have hcm : compose_message nov = none := by
        unfold compose_message
        rw [if_pos h0]
      rw [hcm] at hse
      refine ⟨?_, fun _ _ => hse, ?_⟩
      · rw [hse]
        simp [h0]
      · intro m hm
        rw [hse] at hm
        cases hm
    · have hcm : compose_message nov =
          some { subject := subjectLine (totalCount (filter_high_value_products nov))
                 specialSection :=
                   detect_special_keywords (filter_high_value_products nov)
                 sections := filter_high_value_products nov } := by
        unfold compose_message
        rw [if_neg h0]
      rw [hcm] at hse
      have hsnd : (send_email true transportOk nov).2 =
          some { subject := subjectLine (totalCount (filter_high_value_products nov))
                 specialSection :=
                   detect_special_keywords (filter_high_value_products nov)
                 sections := filter_high_value_products nov } := by
        rw [hse]
        cases transportOk with
        | false => rfl
        | true => rfl
      refine ⟨?_, ?_, ?_⟩
      · rw [hsnd]
        simp [Nat.pos_of_ne_zero h0]
      · intro _ hc
        exact absurd hc h0
      · intro m hm
        rw [hsnd] at hm
        cases hm
        refine ⟨rfl, ?_⟩
        show strContains ("🎸 高価格新商品が"
          ++ toString (totalCount (filter_high_value_products nov))
          ++ "件見つかりました - 5サイト統合監視（毎日・10万円以上のみ） [GitHub Actions]")
          (toString (totalCount (filter_high_value_products nov))) = true
        exact strContains_middle _ _ _

/-- Witness for C4: a run with complete configuration whose novelty is
entirely below the threshold skips sending with the non-error outcome. -/
theorem C4_notification_gating_witness :
    send_email true true [("ikebe", [wCheap])] = (SendOutcome.skippedNoHighValue, none) :=
  (C4_notification_gating true true [("ikebe", [wCheap])]).2.1 rfl (by decide)

/-- Counterexample to C2 as stated: when every source yields an empty
list, `check_for_updates` returns at line 857 before any persistence, so
the run's event trace is empty — in particular it contains no snapshot
write, refuting "at the end of every run, the current snapshot is
persisted". -/
theorem C2_persistence_counterexample :
    check_for_updates true true allEmptySnapshot [] = [] := by decide

/-- C2 as amended: in every run in which at least one source yielded a
record (the early total-failure return is not taken), the trace is a
possibly-empty notification prefix followed by exactly the snapshot write
of the current snapshot — so persistence follows the notification attempt
on every such path, whatever the notification outcome and whether or not
novelty was found. -/
theorem C2_persistence_amended (configOk transportOk : Bool) (current previous : Snapshot)
    (hne : current.any (fun kv => !kv.2.isEmpty) = true) :
    ∃ pre, check_for_updates configOk transportOk current previous =
        pre ++ [RunEvent.savedSnapshot current] ∧
      ∀ e ∈ pre, ∃ outcome, e = RunEvent.notified outcome := by
  unfold check_for_updates
  rw [hne]
  simp only [Bool.not_true, Bool.false_eq_true, if_false]
  refine ⟨_, rfl, ?_⟩
  intro e he
  split at he
  · rcases List.mem_singleton.1 he with rfl
    exact ⟨_, rfl⟩
  · cases he

/-- Witness for C2 as amended at a concrete run with novelty present. -/
theorem C2_persistence_amended_witness :
    ∃ pre, check_for_updates true true [("ikebe", [wProdB])] [] =
        pre ++ [RunEvent.savedSnapshot [("ikebe", [wProdB])]] ∧
      ∀ e ∈ pre, ∃ outcome, e = RunEvent.notified outcome :=
  C2_persistence_amended true true [("ikebe", [wProdB])] [] (by decide)

/-- A possible value of the builtin `hash` in one interpreter process. -/
def hashRunA : String → Int := fun _ => 12345

/-- A possible value of the builtin `hash` in another process (string
hashing is salted per process unless PYTHONHASHSEED is fixed). -/
def hashRunB : String → Int := fun _ => 54321

/-- C6 (code bug): within one process the id assigned by
`create_product_info` is deterministic in store, name and link, and
independent of the price and the discovery timestamp (first conjunct); but
the id is built from the process's salted builtin `hash`, so the same
listing observed under the hash functions of two different interpreter
processes receives different ids (second conjunct) — the cross-run
stability the claim and §9 of the specification require does not hold. -/
theorem C6_id_hash_dependence :
    (∀ (h : String → Int) (now1 now2 store name : String)
        (price1 price2 : Option String) (link sn : String),
      (create_product_info h now1 store name price1 link sn).id
        = (create_product_info h now2 store name price2 link sn).id) ∧
    (create_product_info hashRunA "2026-10-11T08:00:00" "qsic"
        "Antonio Sanchez Model 1025" (some "¥350,000") "https://www.qsic.jp" "QSic").id
      ≠ (create_product_info hashRunB "2026-10-12T08:00:00" "qsic"
        "Antonio Sanchez Model 1025" (some "¥350,000") "https://www.qsic.jp" "QSic").id :=
  ⟨fun _ _ _ _ _ _ _ _ _ => rfl, by decide⟩

/-- C7: every canonical price string produced by
`extract_price_from_text` is the yen sign followed by the
thousands-grouped decimal digits of some non-negative integer `n`, and
`extract_price_value` maps that string back to exactly `n` (first
conjunct); the high-value classification of a record is by definition the
threshold comparison of that same parsed value (second conjunct). -/
theorem C7_price_roundtrip :
    (∀ text s : String, extract_price_from_text text = some s →
      ∃ n : Nat, s = "¥" ++ pyFormatComma n ∧ extract_price_value s = n) ∧
    (∀ p : Product, is_high_value_product p =
      decide (100000 ≤ extract_price_value p.price)) := by
  constructor
  · intro text s hs
    obtain ⟨g, hg⟩ := extract_price_from_text_canonize hs
    obtain ⟨n, rfl⟩ := canonize_shape hg
    exact ⟨n, rfl, extract_price_value_canonical n⟩
  · intro p
    rfl

/-- Witness for C7 at a concrete page text. -/
theorem C7_price_roundtrip_witness :
    ∃ n : Nat, ("¥1,234,567" : String) = "¥" ++ pyFormatComma n ∧
      extract_price_value "¥1,234,567" = n :=
  C7_price_roundtrip.1 "ギター ¥1,234,567 です" "¥1,234,567" (by decide)

/-- C8: the validator rejects, regardless of every other field, any
candidate named `Guit` (4 characters), any candidate whose link is
`www.example.com/x` (no HTTP scheme), any candidate whose price is the
placeholder sentinel, and any candidate carrying the nine-character
punctuation-only name of the claim (every non-space character drawn from
the punctuation set). -/
theorem C8_validator_rejections :
    (∀ id price link store sn fd : String,
      is_valid_product ⟨id, "Guit", price, link, store, sn, fd⟩ = false) ∧
    (∀ id name price store sn fd : String,
      is_valid_product ⟨id, name, price, "www.example.com/x", store, sn, fd⟩ = false) ∧
    (∀ id name link store sn fd : String,
      is_valid_product ⟨id, name, "価格確認中", link, store, sn, fd⟩ = false) ∧
    (∀ id price link store sn fd : String,
      is_valid_product ⟨id, "***---///", price, link, store, sn, fd⟩ = false) := by
  refine ⟨?_, ?_, ?_, ?_⟩
  · intro id price link store sn fd
    rfl
  · intro id name price store sn fd
    unfold is_valid_product
    split
    · rfl
    split
    · rfl
    · rename_i h2
      exfalso
      apply h2
      dsimp only
      decide
  · intro id name link store sn fd
    unfold is_valid_product
    split
    · rfl
    split
    · rfl
    split
    · rfl
    · rename_i h3
      exfalso
      apply h3
      dsimp only
      decide
  · intro id price link store sn fd
    unfold is_valid_product
    split
    · rfl
    split
    · rfl
    split
    · rfl
    split
    · rfl
    split
    · rfl
    split
    · rfl
    split
    · rfl
    · rename_i h7
      exfalso
      apply h7
      dsimp only
      decide

/-! Validity of every parser's output (claim C9): each parser appends a
record only behind the `is_valid_product` guard, so membership in any
parser's result implies validity. -/

theorem ikebeCandidate_valid {h : String → Int} {uj : String → String → String}
    {now base : String} {l : LinkElem} {p : Product}
    (hc : ikebeCandidate h uj now base l = some p) : is_valid_product p = true := by
  unfold ikebeCandidate at hc
  split at hc
  · split at hc
    · cases hc
    · split at hc
      · cases hc
      · exact validGate_eq_some hc
  · cases hc

theorem shimamuraCandidate_valid {h : String → Int} {uj : String → String → String}
    {now base : String} {l : LinkElem} {p : Product}
    (hc : shimamuraCandidate h uj now base l = some p) : is_valid_product p = true := by
  unfold shimamuraCandidate at hc
  split at hc
  · split at hc
    · cases hc
    · split at hc
      · cases hc
      · exact validGate_eq_some hc
  · cases hc

theorem jguitarRowProduct_valid {h : String → Int} {uj : String → String → String}
    {now base : String} {row : List Cell} {p : Product}
    (hc : jguitarRowProduct h uj now base row = some p) : is_valid_product p = true := by
  simp only [jguitarRowProduct] at hc
  split at hc
  · split at hc
    · cases hc
    · split at hc
      · cases hc
      · exact validGate_eq_some hc
  · cases hc

theorem jguitarAltCandidate_valid {h : String → Int} {now base : String}
    {d : DivElem} {p : Product}
    (hc : jguitarAltCandidate h now base d = some p) : is_valid_product p = true := by
  simp only [jguitarAltCandidate] at hc
  split at hc
  · split at hc
    · cases hc
    · exact validGate_eq_some hc
  · cases hc

theorem dedupByName_subset : ∀ (l : List Product) (seen : List String) (p : Product),
    p ∈ dedupByName l seen → p ∈ l := by
  intro l
  induction l with
  | nil => intro seen p hp; cases hp
  | cons q rest ih =>
    intro seen p hp
    unfold dedupByName at hp
    split at hp
    · exact List.mem_cons_of_mem _ (ih _ p hp)
    · rcases List.mem_cons.1 hp with h1 | hp2
      · rw [h1]
        exact List.mem_cons_self _ _
      · exact List.mem_cons_of_mem _ (ih _ p hp2)

theorem validGateAppend_valid {products : List Product} {q0 : Product}
    (hInv : ∀ q ∈ products, is_valid_product q = true) :
    ∀ q ∈ (match validGate q0 with
            | some p => products ++ [p]
            | none => products), is_valid_product q = true := by
  intro q hq
  split at hq
  · rename_i pr hpr
    rcases List.mem_append.1 hq with h1 | h2
    · exact hInv q h1
    · rcases List.mem_singleton.1 h2 with rfl
      exact validGate_eq_some hpr
  · exact hInv q hq

theorem validGateAppend_link {products : List Product} {q0 : Product} {base : String}
    (hInv : ∀ q ∈ products, is_valid_product q = true ∧ q.link = base)
    (hlink : q0.link = base) :
    ∀ q ∈ (match validGate q0 with
            | some p => products ++ [p]
            | none => products), is_valid_product q = true ∧ q.link = base := by
  intro q hq
  split at hq
  · rename_i pr hpr
    unfold validGate at hpr
    split at hpr
    · rename_i hval
      cases hpr
      rcases List.mem_append.1 hq with h1 | h2
      · exact hInv q h1
      · have hqe : q = q0 := List.mem_singleton.1 h2
        rw [hqe]
        exact ⟨hval, hlink⟩
    · cases hpr
  · exact hInv q hq

set_option maxHeartbeats 1600000 in
theorem kurosawaGo_valid (h : String → Int) (uj : String → String → String)
    (now base : String) (product_links : List String) :
    ∀ (n : Nat) (lines : List String) (products : List Product), lines.length ≤ n →
      (∀ q ∈ products, is_valid_product q = true) →
      ∀ p ∈ kurosawaGo h uj now base product_links lines products,
        is_valid_product p = true := by
  intro n
  induction n with
  | zero =>
    intro lines products hn hInv p hp
    rw [List.eq_nil_of_length_eq_zero (Nat.le_zero.1 hn)] at hp
    simp only [kurosawaGo] at hp
    exact hInv p hp
  | succ m ih =>
    intro lines products hn hInv p hp
    match lines with
    | [] =>
      simp only [kurosawaGo] at hp
      exact hInv p hp
    | [line] =>
      simp only [kurosawaGo] at hp
      exact hInv p hp
    | line :: product_name_line :: rest2 =>
      have hlen : (product_name_line :: rest2).length ≤ m := by
        simp only [List.length_cons] at hn ⊢
        omega
      have hlen2 : rest2.length ≤ m := by
        simp only [List.length_cons] at hn
        omega
      simp only [kurosawaGo] at hp
      split at hp
      · split at hp
        · exact ih _ products hlen hInv p hp
        · split at hp
          · exact ih _ products hlen2 hInv p hp
          · exact ih _ _ hlen2 (validGateAppend_valid hInv) p hp
      · exact ih _ products hlen hInv p hp

set_option maxHeartbeats 1600000 in
theorem qsicGo_props (h : String → Int) (now base : String) :
    ∀ (n : Nat) (lines : List String) (products : List Product), lines.length ≤ n →
      (∀ q ∈ products, is_valid_product q = true ∧ q.link = base) →
      ∀ p ∈ qsicGo h now base lines products,
        is_valid_product p = true ∧ p.link = base := by
  intro n
  induction n with
  | zero =>
    intro lines products hn hInv p hp
    rw [List.eq_nil_of_length_eq_zero (Nat.le_zero.1 hn)] at hp
    simp only [qsicGo] at hp
    exact hInv p hp
  | succ m ih =>
    intro lines products hn hInv p hp
    match lines with
    | [] =>
      simp only [qsicGo] at hp
      exact hInv p hp
    | line :: rest =>
      have hlen : rest.length ≤ m := by
        simp only [List.length_cons] at hn
        omega
      simp only [qsicGo] at hp
      split at hp
      · split at hp
        · exact ih rest products hlen hInv p hp
        · rename_i price hpr
          split at hp
          · rename_i a b rest3
            have hlen3 : rest3.length ≤ m := by
              simp only [List.length_cons] at hlen
              omega
            exact ih rest3 _ hlen3 (validGateAppend_link hInv rfl) p hp
          · exact validGateAppend_link hInv rfl p hp
      · exact ih rest products hlen hInv p hp

/-- C9: every record returned by each of the five source parsers passes
the validator (first five conjuncts): each parser appends candidates only
behind the `is_valid_product` guard.  Validator acceptance entails every
invariant component the claim lists (last conjunct): the price is present,
differs from the placeholder sentinel and matches the canonical price
pattern — so no parser ever emits a candidate for which no price was
found — the link starts with the HTTP scheme, and the name has at least
five non-space characters which are not all drawn from the punctuation
set. -/
theorem C9_snapshot_validity :
    (∀ (h : String → Int) (uj : String → String → String) (now base : String)
        (links : List LinkElem),
      ∀ p ∈ parse_ikebe_products h uj now base links, is_valid_product p = true) ∧
    (∀ (h : String → Int) (uj : String → String → String)
        (now base textContent : String) (hrefs : List String),
      ∀ p ∈ parse_kurosawa_products_fixed h uj now base textContent hrefs,
        is_valid_product p = true) ∧
    (∀ (h : String → Int) (uj : String → String → String) (now base : String)
        (links : List LinkElem),
      ∀ p ∈ parse_shimamura_products h uj now base links, is_valid_product p = true) ∧
    (∀ (h : String → Int) (now base textContent : String),
      ∀ p ∈ parse_qsic_products_fixed h now base textContent,
        is_valid_product p = true) ∧
    (∀ (h : String → Int) (uj : String → String → String) (now base : String)
        (tables : List (List (List Cell))) (divs : List DivElem),
      ∀ p ∈ parse_jguitar_products_improved h uj now base tables divs,
        is_valid_product p = true) ∧
    (∀ p : Product, is_valid_product p = true →
      pyTrim p.price ≠ "" ∧ pyTrim p.price ≠ "価格確認中" ∧
      pricePatSearch (pyTrim p.price).toList = true ∧
      pyStartsWith p.link "http" = true ∧
      5 ≤ ((pyTrim p.name).toList.filter (fun c => c != ' ')).length ∧
      ((pyTrim p.name).toList.filter (fun c => c != ' ')).all
          (fun c => punctuation_chars.contains c) = false) := by
  refine ⟨?_, ?_, ?_, ?_, ?_, ?_⟩
  · intro h uj now base links p hp
    rcases List.mem_filterMap.1 hp with ⟨l, _, hc⟩
    exact ikebeCandidate_valid hc
  · intro h uj now base textContent hrefs p hp
    refine kurosawaGo_valid h uj now base
      (hrefs.filter (fun x => strContains x "/items/")) (pyLines textContent).length
      (pyLines textContent) [] (Nat.le_refl _)
      (fun q hq => absurd hq (List.not_mem_nil q)) p ?_
    exact List.mem_of_mem_take hp
  · intro h uj now base links p hp
    rcases List.mem_filterMap.1 hp with ⟨l, _, hc⟩
    exact shimamuraCandidate_valid hc
  · intro h now base textContent p hp
    exact (qsicGo_props h now base (pyLines textContent).length (pyLines textContent) []
      (Nat.le_refl _) (fun q hq => absurd hq (List.not_mem_nil q)) p hp).1
  · intro h uj now base tables divs p hp
    simp only [parse_jguitar_products_improved] at hp
    have hp2 := dedupByName_subset _ _ p (List.mem_of_mem_take hp)
    have hmain : ∀ q ∈ tables.flatMap
        (fun rows => rows.filterMap (jguitarRowProduct h uj now base)),
        is_valid_product q = true := by
      intro q hq
      rcases List.mem_flatMap.1 hq with ⟨rows, _, hrow⟩
      rcases List.mem_filterMap.1 hrow with ⟨row, _, hc⟩
      exact jguitarRowProduct_valid hc
    split at hp2
    · rcases List.mem_append.1 hp2 with h1 | h2
      · exact hmain p h1
      · rcases List.mem_filterMap.1 h2 with ⟨d, _, hc⟩
        exact jguitarAltCandidate_valid hc
    · exact hmain p hp2
  · intro p hv
    unfold is_valid_product at hv
    split at hv
    · cases hv
    split at hv
    · cases hv
    split at hv
    · cases hv
    split at hv
    · cases hv
    split at hv
    · cases hv
    split at hv
    · cases hv
    split at hv
    · cases hv
    · rename_i h1 h2 h3 h4 h5 h6 h7
      simp only [Bool.or_eq_true, beq_iff_eq, Bool.not_eq_true, Bool.not_eq_true,
        Bool.not_eq_false, decide_eq_true_eq, not_or, not_lt] at h2 h3 h4 h6 h7
      refine ⟨h3.1, h3.2, ?_, ?_, h6, h7⟩
      · simpa using h4
      · simpa using h2.2

/-- Witness for C9 at a concrete qsic page text whose parse output is
non-empty: the emitted record is valid. -/
theorem C9_snapshot_validity_witness :
    is_valid_product
      ⟨"qsic_7", "A Model 10 Cedar", "¥350,000", "https://www.qsic.jp",
        "qsic", "QSic", "NOW"⟩ = true :=
  C9_snapshot_validity.2.2.2.1 (fun _ => 7) "NOW" "https://www.qsic.jp"
    "A Model 10 Cedar【返品OK】 [u]\n350,000円(税込)" _ (by decide)

/-- The base URL of the qsic entry of the `stores` configuration, the
`link` passed for every qsic record (source line 389). -/
def qsicBaseUrl : String :=
  (((stores.find? (fun st => st.key == "qsic")).map StoreInfo.base_url).getD "")

/-- C10: the qsic base URL is the fixed site root (first conjunct); every
record produced by the qsic parser carries that base URL as its link
rather than a per-listing URL (second conjunct); and consequently the id
assigned by `create_product_info` for qsic records is a function of the
constructed full name alone — two records built from the same full name
in the same process receive the same id whatever their price or
timestamp (third conjunct). -/
theorem C10_qsic_link_and_id :
    qsicBaseUrl = "https://www.qsic.jp" ∧
    (∀ (h : String → Int) (now textContent : String),
      ∀ p ∈ parse_qsic_products_fixed h now qsicBaseUrl textContent,
        p.link = qsicBaseUrl) ∧
    (∀ (h : String → Int) (now1 now2 full_name price1 price2 : String),
      (create_product_info h now1 "qsic" full_name (some price1) qsicBaseUrl "QSic").id
        = (create_product_info h now2 "qsic" full_name (some price2) qsicBaseUrl "QSic").id)
    := by
  refine ⟨rfl, ?_, ?_⟩
  · intro h now textContent p hp
    exact (qsicGo_props h now qsicBaseUrl (pyLines textContent).length (pyLines textContent)
      [] (Nat.le_refl _) (fun q hq => absurd hq (List.not_mem_nil q)) p hp).2
  · intro h now1 now2 full_name price1 price2
    rfl

/-- Witness for C10 at a concrete qsic page text. -/
theorem C10_qsic_link_and_id_witness :
    (⟨"qsic_7", "A Model 10 Cedar", "¥350,000", "https://www.qsic.jp",
        "qsic", "QSic", "NOW"⟩ : Product).link = qsicBaseUrl :=
  C10_qsic_link_and_id.2.1 (fun _ => 7) "NOW"
    "A Model 10 Cedar【返品OK】 [u]\n350,000円(税込)" _ (by decide)

end MSM
